/-
  Verification of the GemmaStone kidney-stone clinical pipeline.

  Shallow embedding of the decision engine, lab integration, CT-output
  normalizer and mesh blob encoder/decoder from
  backend/app/workflows/kidney_stone.py, backend/app/workflows/ct_normalization.py
  and backend/app/api/routes/analyses.py.

  Conventions of the embedding:
  * Python floats are modelled as exact rationals (ℚ).  All numeric literals
    appearing in the source are decimal and far from any comparison boundary,
    so the float/rational gap does not affect any compared outcome.
  * Python strings are Lean Strings; substring tests are implemented over
    the character list.
  * Optional / missing dict fields are modelled with Option.
-/
import Mathlib

set_option linter.unusedVariables false

namespace GemmaStone

/-- Character-list prefix test (Python `str.startswith` over chars). -/
def hasPrefixC : List Char → List Char → Bool
  | [], _ => true
  | _ :: _, [] => false
  | p :: ps, c :: cs => (p = c) && hasPrefixC ps cs

/-- Character-list substring test (Python `needle in haystack`). -/
def hasSubstrC (needle : List Char) : List Char → Bool
  | [] => needle.isEmpty
  | c :: cs => hasPrefixC needle (c :: cs) || hasSubstrC needle cs

/-- Python `needle in haystack` on strings. -/
def str_contains (haystack needle : String) : Bool :=
  hasSubstrC needle.toList haystack.toList

/-- Python `str.lower()`; the labels handled by the pipeline are ASCII, where
`Char.toLower` agrees with Python. -/
def to_lower (s : String) : String :=
  String.mk (s.data.map Char.toLower)

/-- ASCII whitespace recognized by Python `str.strip()`. -/
def is_space_char (c : Char) : Bool :=
  c = ' ' || c = '\t' || c = '\n' || c = '\r' || c = '\x0b' || c = '\x0c'

/-- Python `str.strip()`. -/
def py_strip (s : String) : String :=
  String.mk (((s.data.dropWhile is_space_char).reverse.dropWhile is_space_char).reverse)

/-- Voxel spacing triple `(dz, dy, dx)` in millimetres, as produced by
`DicomProcessor.get_spacing`. -/
structure Spacing where
  dz : ℚ
  dy : ℚ
  dx : ℚ
deriving DecidableEq, Repr

/-- Python `max(spacing)` over the spacing triple. -/
def max_spacing (sp : Spacing) : ℚ := max sp.dz (max sp.dy sp.dx)

/-- The decimal literal `3.141592653589793` used for π throughout
`kidney_stone.py` (`_equivalent_diameter_mm`, `_estimate_stone_volume_mm3`). -/
def pi_lit : ℚ := 3.141592653589793

/--
Threshold test on the sphere-equivalent diameter of a stone burden.

`_equivalent_diameter_mm` returns `None` for `volume <= 0` and otherwise
`(6*v/pi) ** (1/3)`; every consumer only compares that value against a
non-negative threshold `t` (20, 15 or 30), treating `None` as failing
(`eq_diameter is not None and eq_diameter >= t`, or `(eq_diameter or 0) >= t`).
Because the real cube root is strictly monotone on nonnegative reals,
`(6*v/pi) ** (1/3) >= t  ↔  6*v >= t^3 * pi` whenever `v > 0` and `t >= 0`,
so the embedding performs the cubed comparison, which keeps it executable
over ℚ. -/
def equivalent_diameter_ge (burden : Option ℚ) (t : ℚ) : Bool :=
  match burden with
  | none => false
  | some v => decide (0 < v) && decide (t ^ 3 * pi_lit ≤ 6 * v)

/-- Canonical stone record as read by the treatment/urgency engine
(`kidney_stone.py` reads these dict fields; truthiness-valued obstruction
flags are modelled as Bool). -/
structure Stone where
  location : Option String
  size_mm : Option ℚ
  shape : Option String
  hydronephrosis : Option String
  complete_obstruction : Bool
  obstruction : Bool
deriving DecidableEq, Repr

/-- `_stone_size_mm`: `float(stone.get("size_mm", 0) or 0)`; both a missing
key and a zero/None value give 0. -/
def stone_size_mm (s : Stone) : ℚ := s.size_mm.getD 0

/-- `_predict_composition_from_hu`, with the source's (redundant) range
guards embedded verbatim. -/
def predict_composition_from_hu (hu : ℚ) : String :=
  if hu < 500 then "uric_acid"
  else if 500 ≤ hu ∧ hu < 700 then "cystine"
  else if 700 ≤ hu ∧ hu < 1000 then "calcium_oxalate"
  else "calcium_phosphate"

/-- `_normalize_location`: lowercases and tests substrings; `None` and the
empty string (Python falsiness) map to the default `"kidney_upper"`, as does
any string matching no marker. -/
def normalize_location (location : Option String) : String :=
  match location with
  | none => "kidney_upper"
  | some s =>
    if s = "" then "kidney_upper"
    else
      let loc := to_lower s
      if str_contains loc "upper" && str_contains loc "kidney" then "kidney_upper"
      else if str_contains loc "lower" && str_contains loc "kidney" then "kidney_lower"
      else if str_contains loc "proximal" || str_contains loc "upper ureter" then "proximal_ureter"
      else if str_contains loc "distal" || str_contains loc "lower ureter" then "distal_ureter"
      else if str_contains loc "ureter" then "proximal_ureter"
      else "kidney_upper"

/-- `_is_ureteral`: `"ureter" in location`. -/
def is_ureteral (location : String) : Bool := str_contains location "ureter"

/-- `_is_lower_pole`: `location.startswith("kidney_lower")`. -/
def is_lower_pole (location : String) : Bool :=
  hasPrefixC "kidney_lower".toList location.toList

/-- `_is_staghorn`: `"staghorn" in str(stone.get("shape") or "").lower()`. -/
def is_staghorn (s : Stone) : Bool :=
  match s.shape with
  | none => false
  | some sh => str_contains (to_lower sh) "staghorn"

/-- `_adjust_for_composition`. -/
def adjust_for_composition (treatment composition : String) (size_mm : ℚ) : String :=
  if composition = "uric_acid" ∧ size_mm < 15 then "medical_expulsive"
  else if composition = "struvite" ∧ 10 < size_mm then "pcnl"
  else treatment

/-- `_identify_primary_stone`: `max(stones, key=size)`; Python `max` keeps the
first maximal element.  Python raises on an empty list; all callers guard for
non-emptiness (`treatment_decision_node` returns early), so the embedding
returns a default stone there. -/
def identify_primary_stone (stones : List Stone) : Stone :=
  match stones with
  | [] => ⟨none, none, none, none, false, false⟩
  | s :: rest =>
    rest.foldl (fun best x => if stone_size_mm best < stone_size_mm x then x else best) s

/-- The `ureteral` sublist computed in `_choose_treatment`. -/
def ureteral_stones (stones : List Stone) : List Stone :=
  stones.filter (fun s => is_ureteral (normalize_location s.location))

/-- The `renal` sublist of `_choose_treatment`: `[s for s in stones if s not
in ureteral]`.  Python membership compares dicts by value; two equal dicts
normalize to the same location, so this filter is exactly the complement of
the ureteral predicate. -/
def renal_stones (stones : List Stone) : List Stone :=
  stones.filter (fun s => !is_ureteral (normalize_location s.location))

/-- Maximum reported size over a stone list (Python `max(...)` over a
non-empty generator; the empty case is unreachable at the call site). -/
def max_size_of (stones : List Stone) : ℚ :=
  match stones with
  | [] => 0
  | s :: rest => rest.foldl (fun m x => max m (stone_size_mm x)) (stone_size_mm s)

/-- `_choose_treatment`.  `eq_diameter` is `None` when the burden is falsy
(`if total_burden_mm3 else None`) or non-positive; every use is a threshold
comparison treating `None` as 0, captured exactly by
`equivalent_diameter_ge`. -/
def choose_treatment (stones : List Stone) (composition : String)
    (total_burden_mm3 : Option ℚ) (hydronephrosis_level : Option String) : String :=
  let primary := identify_primary_stone stones
  let max_size := stone_size_mm primary
  let ureteral := ureteral_stones stones
  let renal := renal_stones stones
  let lower_pole := renal.any (fun s => is_lower_pole (normalize_location s.location))
  let has_staghorn := stones.any is_staghorn
  if (hydronephrosis_level = some "severe" ∨ hydronephrosis_level = some "moderate")
      ∧ ureteral ≠ [] then "ureteroscopy"
  else if has_staghorn = true
      ∨ (composition = "struvite"
          ∧ (10 ≤ max_size ∨ equivalent_diameter_ge total_burden_mm3 20 = true)) then "pcnl"
  else if equivalent_diameter_ge total_burden_mm3 20 = true then "pcnl"
  else if 3 ≤ stones.length ∧ equivalent_diameter_ge total_burden_mm3 15 = true then "pcnl"
  else if ureteral ≠ [] then
    let max_ureter := max_size_of ureteral
    let distal := ureteral.any (fun s => normalize_location s.location = "distal_ureter")
    if max_ureter < 5 then (if distal then "medical_expulsive" else "observation")
    else if max_ureter ≤ 10 then (if distal then "medical_expulsive" else "ureteroscopy")
    else "ureteroscopy"
  else if 20 ≤ max_size then "pcnl"
  else if 10 ≤ max_size then (if lower_pole then "ureteroscopy" else "eswl")
  else adjust_for_composition "observation" composition max_size

/-- Python `sum(float(s.get("size_mm", 0) or 0) for s in stones)`. -/
def sum_sizes (stones : List Stone) : ℚ := (stones.map stone_size_mm).sum

/-- The per-stone `for` loop of `_assess_urgency`, which returns at the first
stone carrying any flag. -/
def urgency_stone_scan : List Stone → Option String
  | [] => none
  | s :: rest =>
    if s.hydronephrosis = some "severe" then some "emergent"
    else if s.complete_obstruction then some "emergent"
    else if s.obstruction then some "urgent"
    else urgency_stone_scan rest

/-- `_assess_urgency`.  Note the burden branch is guarded by
`total_burden_mm3 is not None` (identity, not truthiness), and the
sum-of-sizes fallback runs only when the burden is `None`. -/
def assess_urgency (stones : List Stone) (total_burden_mm3 : Option ℚ)
    (hydronephrosis_level : Option String) : String :=
  match urgency_stone_scan stones with
  | some u => u
  | none =>
    if hydronephrosis_level = some "severe" then "emergent"
    else if hydronephrosis_level = some "moderate" then "urgent"
    else
      match total_burden_mm3 with
      | some v => if equivalent_diameter_ge (some v) 30 = true then "urgent" else "routine"
      | none => if 30 < sum_sizes stones then "urgent" else "routine"

/-- `_normalize_composition`: stringify, strip, lowercase, then substring
dispatch; anything unrecognized (or falsy) maps to `"unknown"`. -/
def normalize_composition (value : Option String) : String :=
  match value with
  | none => "unknown"
  | some s =>
    if s = "" then "unknown"
    else
      let text := to_lower (py_strip s)
      if str_contains text "oxalate" then "calcium_oxalate"
      else if str_contains text "phosphate" then "calcium_phosphate"
      else if str_contains text "uric" then "uric_acid"
      else if str_contains text "struvite" then "struvite"
      else if str_contains text "cystine" then "cystine"
      else if str_contains text "mixed" then "mixed"
      else "unknown"

/-! ### Lab integration (`lab_integration_node`)

Crystallography values reaching `_normalize_composition` go through `str()`;
the model carries them as strings.  The 24-hour urine payload is required by
the upstream boundary validator (spec §6) to carry numeric values, so its
values are modelled as rationals; `_parse_float` is then the identity. -/

/-- Workflow-state fields read and written by `lab_integration_node`.
A missing `composition_confidence` key is `none` (the code defaults it to
`0.0` on read); a missing/`None` risk-factor list is the empty list
(`state.get(...) or []`). -/
structure LabState where
  predicted_composition : String
  composition_confidence : Option ℚ
  metabolic_risk_factors : List String
deriving DecidableEq, Repr

/-- Python `dict.get` over an association list (dict keys are unique). -/
def dict_get_str (d : List (String × String)) (k : String) : Option String :=
  (d.find? (fun p => p.1 = k)).map Prod.snd

/-- The `for key in (...)` loop locating the crystallography composition:
takes the first key whose value is truthy (present and non-empty). -/
def first_truthy (d : List (String × String)) : List String → Option String
  | [] => none
  | k :: rest =>
    match dict_get_str d k with
    | some v => if v = "" then first_truthy d rest else some v
    | none => first_truthy d rest

/-- The accepted crystallography composition keys, in source order. -/
def composition_keys : List String :=
  ["composition", "stone_type", "stone_composition", "primary_composition"]

/-- Python `dict.get` over a numeric association list. -/
def dict_get_num (d : List (String × ℚ)) (k : String) : Option ℚ :=
  (d.find? (fun p => p.1 = k)).map Prod.snd

/-- `d.get(k1) or d.get(k2) or ... or d.get(kn)`: each falsy operand
(missing key, or value 0) falls through to the next; the last operand is
returned as-is (so a final 0 stays 0). -/
def or_chain (d : List (String × ℚ)) : List String → Option ℚ
  | [] => none
  | [k] => dict_get_num d k
  | k :: rest =>
    match dict_get_num d k with
    | some v => if v = 0 then or_chain d rest else some v
    | none => or_chain d rest

/-- `lhs is not None and lhs > t` for an optional parsed value. -/
def opt_gt (o : Option ℚ) (t : ℚ) : Bool :=
  match o with
  | some v => decide (t < v)
  | none => false

/-- `lhs is not None and lhs < t` for an optional parsed value. -/
def opt_lt (o : Option ℚ) (t : ℚ) : Bool :=
  match o with
  | some v => decide (v < t)
  | none => false

/-- One conditional `risk_factors.add(name)`. -/
def flag_set (b : Bool) (name : String) : Finset String :=
  if b then {name} else ∅

/-- The metabolic risk flags contributed by one urine payload: the union of
the eight threshold rules of `lab_integration_node`. -/
def urine_flags (u : List (String × ℚ)) : Finset String :=
  flag_set (opt_gt (or_chain u ["calcium_mg_day", "urine_calcium_mg_day", "calcium"]) 250)
      "hypercalciuria" ∪
  flag_set (opt_lt (or_chain u ["citrate_mg_day", "urine_citrate_mg_day", "citrate"]) 320)
      "hypocitraturia" ∪
  flag_set (opt_gt (or_chain u ["uric_acid_mg_day", "urine_uric_acid_mg_day", "uric_acid"]) 750)
      "hyperuricosuria" ∪
  flag_set (opt_lt (or_chain u ["ph", "urine_ph", "pH"]) (11/2)) "acidic_urine" ∪
  flag_set (opt_gt (or_chain u ["ph", "urine_ph", "pH"]) (34/5)) "alkaline_urine" ∪
  flag_set (opt_lt (or_chain u ["volume_ml_day", "urine_volume_ml_day", "volume_ml"]) 2000)
      "low_urine_volume" ∪
  flag_set (opt_gt (or_chain u ["oxalate_mg_day", "urine_oxalate_mg_day", "oxalate"]) 40)
      "hyperoxaluria" ∪
  flag_set (opt_gt (or_chain u ["sodium_mg_day", "urine_sodium_mg_day", "sodium"]) 2300)
      "hypernatriuria"

/-- `lab_integration_node`: crystallography override of the composition, then
the urine threshold flags accumulated into the prior risk-factor set, which
is returned as `sorted(risk_factors)`. -/
def lab_integration_node (state : LabState) (crystallography : List (String × String))
    (urine_results : List (String × ℚ)) : LabState :=
  let risk_factors : Finset String := state.metabolic_risk_factors.toFinset
  let lab_composition := first_truthy crystallography composition_keys
  let normalized := normalize_composition lab_composition
  let state1 :=
    if normalized ≠ "unknown" then
      { state with
          predicted_composition := normalized,
          composition_confidence :=
            some (max (state.composition_confidence.getD 0) (9/10)) }
    else state
  { state1 with
      metabolic_risk_factors :=
        (risk_factors ∪ urine_flags urine_results).sort (· ≤ ·) }

/-! ### CT output normalization (`ct_normalization.py`)

The perception output is JSON-like; it is modelled by `JVal`.  Python floats
and ints are both `jnum`.  Two stdlib behaviours are abstracted, each noted
at its use site: `float(s)` on a *numeric string* (the model's string fields
are non-numeric strings, on which `float` raises and `_parse_float` yields
`None`), and `json.loads` (a JSON-string input to the normalizer reduces to
running the normalizer on its parse result, and to the empty payload when
parsing fails). -/

/-- JSON-like value. -/
inductive JVal where
  | jnum (q : ℚ)
  | jstr (s : String)
  | jbool (b : Bool)
  | jarr (l : List JVal)
  | jobj (o : List (String × JVal))
  | jnull

/-- A stone entry: a JSON object, i.e. an association list with unique keys
(Python dict preserving insertion order). -/
abbrev StoneDict := List (String × JVal)

/-- `d[k]` if the key is present (possibly with a `None` value). -/
def jdict_get (st : StoneDict) (k : String) : Option JVal :=
  (st.find? (fun p => p.1 = k)).map Prod.snd

/-- Python `k in d`. -/
def jdict_contains (st : StoneDict) (k : String) : Bool :=
  (st.find? (fun p => p.1 = k)).isSome

/-- Python `d.get(k)`: `None` for a missing key and for a `None` value. -/
def jdict_get_val (st : StoneDict) (k : String) : Option JVal :=
  match jdict_get st k with
  | some .jnull => none
  | o => o

/-- `d[k] = v`: replaces in place if present (keys are unique), else appends
at the end, as Python dict assignment does. -/
def jdict_set : StoneDict → String → JVal → StoneDict
  | [], k, v => [(k, v)]
  | (k', v') :: rest, k, v =>
    if k' = k then (k, v) :: rest else (k', v') :: jdict_set rest k v

/-- `d.pop(k, None)`. -/
def jdict_remove (st : StoneDict) (k : String) : StoneDict :=
  st.filter (fun p => p.1 ≠ k)

/-- `_parse_float`: `float(value)` with `TypeError`/`ValueError` mapped to
`None`.  `float` of a bool is 0.0/1.0; lists, dicts, `None` and (in the
modelled domain) strings do not parse. -/
def parse_float_j : JVal → Option ℚ
  | .jnum q => some q
  | .jbool b => some (if b then 1 else 0)
  | _ => none

/-- `_parse_float` applied to an optional value (`_parse_float(None) = None`). -/
def parse_float_opt (o : Option JVal) : Option ℚ :=
  match o with
  | some v => parse_float_j v
  | none => none

/-- `_first_value`: the first listed key that is present with a non-`None`
value; later keys are not consulted even if the chosen value fails to parse. -/
def first_value (st : StoneDict) : List String → Option JVal
  | [] => none
  | k :: rest =>
    match jdict_get st k with
    | some .jnull => first_value st rest
    | some v => some v
    | none => first_value st rest

/-- `_parse_vector`: a list parses iff every element parses; everything else
(including, in the modelled domain, strings) yields `None`. -/
def parse_vector : JVal → Option (List ℚ)
  | .jarr l => l.mapM parse_float_j
  | _ => none

/-- `_parse_vector` applied to an optional value. -/
def parse_vector_opt (o : Option JVal) : Option (List ℚ) :=
  match o with
  | some v => parse_vector v
  | none => none

/-- `_voxels_to_mm`: for fewer than three components only the first is
converted, by the maximum spacing; otherwise the first three are converted
per axis, in `(z, y, x)` order.  The empty case is unreachable (callers
guard truthiness; Python would index out of range). -/
def voxels_to_mm (dims_vox : List ℚ) (sp : Spacing) : List ℚ :=
  match dims_vox with
  | d0 :: d1 :: d2 :: _ => [d0 * sp.dz, d1 * sp.dy, d2 * sp.dx]
  | d0 :: _ => [d0 * max_spacing sp]
  | [] => []

/-- Python `max` over a list; the empty case is unreachable at every call
site (all guarded by truthiness). -/
def list_max (l : List ℚ) : ℚ :=
  match l with
  | [] => 0
  | x :: rest => rest.foldl max x

/-- Key aliases for an explicit millimetre size. -/
def size_mm_keys : List String :=
  ["size_mm", "diameter_mm", "max_diameter_mm", "max_dimension_mm"]

/-- Key aliases for millimetre dimensions. -/
def dims_mm_keys : List String := ["dimensions_mm", "dims_mm", "dimensions"]

/-- Key aliases for a scalar voxel size. -/
def size_voxels_keys : List String :=
  ["size_voxels", "size_px", "max_dimension_voxels", "max_dimension_px"]

/-- Key aliases for voxel dimensions. -/
def dims_voxels_keys : List String :=
  ["dimensions_voxels", "dimensions_px", "dims_voxels", "dims_px"]

/-- Key aliases for a voxel bounding box. -/
def bbox_keys : List String :=
  ["bbox_voxels", "bbox_px", "bounding_box_voxels", "bounding_box_px", "bbox"]

/-- `_normalize_sizes`: the `size_mm` priority chain, with its writes to
`dimensions_mm` and `size_mm`.  A zero scalar voxel size is skipped by
truthiness (`if size_voxels:`); empty parsed vectors are likewise falsy. -/
def normalize_sizes (stone : StoneDict) (sp : Spacing) : StoneDict :=
  let size0 := parse_float_opt (first_value stone size_mm_keys)
  let dims_mm0 := parse_vector_opt (first_value stone dims_mm_keys)
  let stone1 :=
    match dims_mm0 with
    | some (d :: ds) => jdict_set stone "dimensions_mm" (.jarr ((d :: ds).map .jnum))
    | _ => stone
  let size1 :=
    match size0, dims_mm0 with
    | none, some (d :: ds) => some (list_max (d :: ds))
    | _, _ => size0
  let size2 :=
    match size1 with
    | some q => some q
    | none =>
      match parse_float_opt (first_value stone size_voxels_keys) with
      | some sv => if sv = 0 then none else some (sv * max_spacing sp)
      | none => none
  let dims_vox :=
    match size2 with
    | some _ => none
    | none => parse_vector_opt (first_value stone dims_voxels_keys)
  let stone2 :=
    match dims_vox with
    | some (d :: ds) =>
        jdict_set stone1 "dimensions_mm" (.jarr ((voxels_to_mm (d :: ds) sp).map .jnum))
    | _ => stone1
  let size3 :=
    match size2, dims_vox with
    | none, some (d :: ds) => some (list_max (voxels_to_mm (d :: ds) sp))
    | _, _ => size2
  let bbox_dims :=
    match size3 with
    | some _ => none
    | none =>
      match parse_vector_opt (first_value stone bbox_keys) with
      | some (b0 :: b1 :: b2 :: b3 :: b4 :: b5 :: _) => some [b3 - b0, b4 - b1, b5 - b2]
      | _ => none
  let stone3 :=
    match bbox_dims with
    | some dims =>
        jdict_set stone2 "dimensions_mm" (.jarr ((voxels_to_mm dims sp).map .jnum))
    | none => stone2
  let size4 :=
    match size3, bbox_dims with
    | none, some dims => some (list_max (voxels_to_mm dims sp))
    | _, _ => size3
  match size4 with
  | some q => jdict_set stone3 "size_mm" (.jnum q)
  | none => stone3

/-- `_normalize_hounsfield`: resolve `hounsfield_units` (falling back to
`hu`), coercing to a number when it parses. -/
def normalize_hounsfield (stone : StoneDict) : StoneDict :=
  let hu :=
    match jdict_get_val stone "hounsfield_units" with
    | some v => some v
    | none => jdict_get_val stone "hu"
  match parse_float_opt hu with
  | some p => jdict_set stone "hounsfield_units" (.jnum p)
  | none => stone

/-- `_coords_dict_to_list`: `{x,y,z}` (or `{X,Y,Z}`) dict to `[x, y, z]`;
the key test is presence only, and a `float` failure inside is caught. -/
def coords_dict_to_list (d : StoneDict) : Option (List ℚ) :=
  if jdict_contains d "x" && jdict_contains d "y" && jdict_contains d "z" then
    match parse_float_opt (jdict_get d "x"), parse_float_opt (jdict_get d "y"),
        parse_float_opt (jdict_get d "z") with
    | some a, some b, some c => some [a, b, c]
    | _, _, _ => none
  else if jdict_contains d "X" && jdict_contains d "Y" && jdict_contains d "Z" then
    match parse_float_opt (jdict_get d "X"), parse_float_opt (jdict_get d "Y"),
        parse_float_opt (jdict_get d "Z") with
    | some a, some b, some c => some [a, b, c]
    | _, _, _ => none
  else none

/-- `_bbox_dict_to_list`: min/max-keyed dict to a flat bbox list; the
`min`/`max` branch takes up to three components of each. -/
def bbox_dict_to_list (d : StoneDict) : Option (List ℚ) :=
  if jdict_contains d "x_min" && jdict_contains d "y_min" && jdict_contains d "z_min" &&
      jdict_contains d "x_max" && jdict_contains d "y_max" && jdict_contains d "z_max" then
    match parse_float_opt (jdict_get d "x_min"), parse_float_opt (jdict_get d "y_min"),
        parse_float_opt (jdict_get d "z_min"), parse_float_opt (jdict_get d "x_max"),
        parse_float_opt (jdict_get d "y_max"), parse_float_opt (jdict_get d "z_max") with
    | some a, some b, some c, some e, some f, some g => some [a, b, c, e, f, g]
    | _, _, _, _, _, _ => none
  else if jdict_contains d "min" && jdict_contains d "max" then
    match jdict_get d "min", jdict_get d "max" with
    | some (.jarr mn), some (.jarr mx) => ((mn.take 3) ++ (mx.take 3)).mapM parse_float_j
    | _, _ => none
  else none

/-- The key order of the coordinate loop in `_preprocess_stone_fields`. -/
def preprocess_coord_keys : List String :=
  ["location_coords", "location_coordinates", "coords", "coordinates",
   "center_coords", "centroid"]

/-- The coordinate phase of `_preprocess_stone_fields`: the first key whose
value is a dict is converted (or dropped when unconvertible) and the loop
breaks; non-dict values do not break the loop. -/
def preprocess_coords (stone : StoneDict) : List String → StoneDict
  | [] => stone
  | k :: rest =>
    match jdict_get stone k with
    | some (.jobj o) =>
      match coords_dict_to_list o with
      | some qs =>
        let s1 := jdict_set stone "location_coords" (.jarr (qs.map .jnum))
        if k = "location_coords" then s1 else jdict_remove s1 k
      | none => jdict_remove stone k
    | _ => preprocess_coords stone rest

/-- `_preprocess_stone_fields`: dict-shaped coordinate and bounding-box
fields are converted to canonical lists before validation. -/
def preprocess_stone_fields (stone : StoneDict) : StoneDict :=
  let s1 := preprocess_coords stone preprocess_coord_keys
  let s2 :=
    match jdict_get s1 "size_voxels" with
    | some (.jobj o) =>
      let t :=
        match bbox_dict_to_list o with
        | some (b :: bs) => jdict_set s1 "bbox_voxels" (.jarr ((b :: bs).map .jnum))
        | _ => s1
      jdict_remove t "size_voxels"
    | _ => s1
  let s3 :=
    match jdict_get s2 "dimensions_voxels" with
    | some (.jobj o) =>
      let t :=
        match bbox_dict_to_list o with
        | some (b :: bs) => jdict_set s2 "bbox_voxels" (.jarr ((b :: bs).map .jnum))
        | _ => s2
      jdict_remove t "dimensions_voxels"
    | _ => s2
  match jdict_get s3 "bbox_voxels" with
  | some (.jobj o) =>
    match bbox_dict_to_list o with
    | some (b :: bs) => jdict_set s3 "bbox_voxels" (.jarr ((b :: bs).map .jnum))
    | _ => jdict_remove s3 "bbox_voxels"
  | _ => s3

/-- The key order of the alias loop in `_normalize_location_coords`. -/
def coord_alias_keys : List String :=
  ["coords", "coordinates", "location_coordinates", "center_coords", "centroid"]

/-- The alias loop of `_normalize_location_coords`: a list value is truncated
to three entries and coerced (Python raises on a non-numeric entry — such
entries are outside the modelled domain, see `coord_aliases_ok`); a dict
value is converted when possible; both break the loop, other values do not. -/
def nlc_loop (stone : StoneDict) : List String → StoneDict
  | [] => stone
  | k :: rest =>
    match jdict_get stone k with
    | some (.jarr l) =>
      match (l.take 3).mapM parse_float_j with
      | some qs => jdict_set stone "location_coords" (.jarr (qs.map .jnum))
      | none => stone
    | some (.jobj o) =>
      match coords_dict_to_list o with
      | some qs => jdict_set stone "location_coords" (.jarr (qs.map .jnum))
      | none => stone
    | _ => nlc_loop stone rest

/-- `_normalize_location_coords`: a no-op when `location_coords` is already
present (even with a `None` value). -/
def normalize_location_coords (stone : StoneDict) : StoneDict :=
  if jdict_contains stone "location_coords" then stone
  else nlc_loop stone coord_alias_keys

/-- `_normalize_stone_fields`: coordinates, then Hounsfield units, then the
size chain. -/
def normalize_stone_fields (stone : StoneDict) (sp : Spacing) : StoneDict :=
  normalize_sizes (normalize_hounsfield (normalize_location_coords stone)) sp

/-- A list value all of whose entries are numbers. -/
def is_num_arr : JVal → Bool
  | .jarr l => l.all (fun v => match v with | .jnum _ => true | _ => false)
  | _ => false

/-- A declared pydantic `float | None` field accepts absence, `None` or a
number (numeric strings, which lax pydantic would also coerce, are outside
the modelled domain). -/
def field_ok_float : Option JVal → Bool
  | none => true
  | some .jnull => true
  | some (.jnum _) => true
  | some _ => false

/-- A declared pydantic `str | None` field. -/
def field_ok_str : Option JVal → Bool
  | none => true
  | some .jnull => true
  | some (.jstr _) => true
  | some _ => false

/-- A declared pydantic `list[float] | None` field. -/
def field_ok_floatlist : Option JVal → Bool
  | none => true
  | some .jnull => true
  | some v => is_num_arr v

/-- `CTStone.model_validate` succeeds iff every declared field type-checks
(extra fields are allowed by `model_config`).  Within the modelled domain the
subsequent `{**item, **model_dump(exclude_none=True)}` merge is the identity:
validation coerces nothing and `exclude_none` drops exactly the fields whose
value was already `None` in `item`. -/
def validate_stone (st : StoneDict) : Bool :=
  field_ok_str (jdict_get st "location") &&
  field_ok_floatlist (jdict_get st "location_coords") &&
  field_ok_float (jdict_get st "size_mm") &&
  field_ok_float (jdict_get st "size_voxels") &&
  field_ok_floatlist (jdict_get st "dimensions_mm") &&
  field_ok_floatlist (jdict_get st "dimensions_voxels") &&
  field_ok_floatlist (jdict_get st "bbox_voxels") &&
  field_ok_float (jdict_get st "hounsfield_units") &&
  field_ok_str (jdict_get st "shape") &&
  field_ok_str (jdict_get st "hydronephrosis")

/-- The uncaught `[float(v) for v in value[:3]]` coercion of
`_normalize_location_coords` succeeds on every alias key: list values have
numeric (or bool) leading entries. -/
def coord_aliases_ok (st : StoneDict) : Bool :=
  coord_alias_keys.all (fun k =>
    match jdict_get st k with
    | some (.jarr l) => ((l.take 3).mapM parse_float_j).isSome
    | _ => true)

/-- `_coerce_payload` on an already-parsed value.  A JSON-string input
reduces to this function on its parse result (`json.loads` failures give the
empty payload), which is how the string case of the normalizer contract is
covered. -/
def coerce_payload : JVal → StoneDict
  | .jobj o => o
  | .jarr l =>
    match l with
    | (.jobj o) :: _ =>
      if jdict_contains o "stones" || jdict_contains o "stones_detected" then o
      else [("stones", .jarr l)]
    | _ => []
  | _ => []

/-- The stone-list location logic of `normalize_ct_output`: the first
non-`None` of `stones`/`stones_detected`/`findings`, a lone dict wrapped as a
one-element list, anything that is not a list discarded. -/
def extract_stones_raw (payload : StoneDict) : List JVal :=
  let sr :=
    match jdict_get_val payload "stones" with
    | some v => some v
    | none =>
      match jdict_get_val payload "stones_detected" with
      | some v => some v
      | none => jdict_get_val payload "findings"
  match sr with
  | some (.jobj o) => [.jobj o]
  | some (.jarr l) => l
  | _ => []

/-- The stone dict entries `normalize_ct_output` iterates over (non-dict
entries are skipped). -/
def extract_stone_dicts (raw : JVal) : List StoneDict :=
  (extract_stones_raw (coerce_payload raw)).filterMap
    (fun v => match v with | .jobj o => some o | _ => none)

/-- The per-stone loop of `normalize_ct_output`: each entry is preprocessed,
validated by `CTStone.model_validate` (a pydantic `ValidationError`, or the
uncaught coercion error of `_normalize_location_coords`, aborts the whole
call — modelled as `Except.error`) and field-normalized. -/
def normalize_stone_list (sp : Spacing) : List StoneDict → Except String (List StoneDict)
  | [] => .ok []
  | o :: rest =>
    let p := preprocess_stone_fields o
    if validate_stone p && coord_aliases_ok p then
      match normalize_stone_list sp rest with
      | .ok l => .ok (normalize_stone_fields p sp :: l)
      | .error e => .error e
    else .error "ValidationError"

/-- `normalize_ct_output` (first component of its return value). -/
def normalize_ct_output (raw : JVal) (sp : Spacing) : Except String (List StoneDict) :=
  normalize_stone_list sp (extract_stone_dicts raw)

/-! ### Mesh blob (`_encode_meshes` / `_decode_mesh_blob`)

The blob is a compressed npz archive: named array slots written by
`np.savez_compressed` and read back by `np.load`, whose contract is exact
name→array round-tripping.  The embedding models the archive at that level —
an ordered list of named slots — with the slot names `metadata_json` /
`v_<i>` / `f_<i>` represented by an inductive key type (the `<i>` rendering
is injective, so this renaming is one-to-one).  The metadata slot holds the
bytes of `json.dumps(metadata)`, read back via `json.loads`; that stdlib
round-trip is modelled by storing the metadata value itself in the slot. -/

/-- The metadata block packed ahead of the geometry. -/
structure MeshMeta where
  version : Nat
  spacing_mm : List ℚ
  stone_count : Nat
  container : String
deriving DecidableEq, Repr

/-- One stone's mesh: float32 vertex rows and int32 face rows (value-level;
`astype(float)`/`astype(int)` on decode widen losslessly). -/
structure MeshData where
  vertices : List (List ℚ)
  faces : List (List ℤ)
deriving DecidableEq, Repr

/-- Archive slot names. -/
inductive NpzKey where
  | metadata_slot
  | vkey (i : Nat)
  | fkey (i : Nat)
deriving DecidableEq, Repr

/-- Archive slot contents. -/
inductive NpzEntry where
  | meta_entry (m : MeshMeta)
  | num_arr (rows : List (List ℚ))
  | int_arr (rows : List (List ℤ))
deriving DecidableEq, Repr

/-- The `v_{idx}` / `f_{idx}` slots for the meshes, starting at `idx = i`. -/
def mesh_entries : Nat → List MeshData → List (NpzKey × NpzEntry)
  | _, [] => []
  | i, m :: rest =>
    (.vkey i, .num_arr m.vertices) :: (.fkey i, .int_arr m.faces) :: mesh_entries (i + 1) rest

/-- `_encode_meshes`: metadata slot followed by per-mesh vertex/face slots. -/
def encode_meshes (meshes : List MeshData) (sp : Spacing) : List (NpzKey × NpzEntry) :=
  (.metadata_slot, .meta_entry ⟨1, [sp.dz, sp.dy, sp.dx], meshes.length, "npz"⟩) ::
    mesh_entries 0 meshes

/-- `data[k]` on the loaded archive. -/
def npz_lookup (archive : List (NpzKey × NpzEntry)) (k : NpzKey) : Option NpzEntry :=
  (archive.find? (fun p => p.1 = k)).map Prod.snd

/-- The `while True` loop of `_decode_mesh_blob`: collect `(v_i, f_i)` pairs
from `idx` upward until either slot is missing.  Each successful iteration
consumes a distinct `v_` slot of the finite archive, so the loop makes at
most `|archive|` successful iterations; running it with that much fuel is
exact. -/
def decode_loop (archive : List (NpzKey × NpzEntry)) :
    Nat → Nat → List (List (List ℚ) × List (List ℤ))
  | 0, _ => []
  | fuel + 1, idx =>
    match npz_lookup archive (.vkey idx), npz_lookup archive (.fkey idx) with
    | some (.num_arr v), some (.int_arr f) => (v, f) :: decode_loop archive fuel (idx + 1)
    | _, _ => []

/-- `_decode_mesh_blob`: metadata (absent or unparseable gives `{}`, i.e.
`none`) plus the collected meshes. -/
def decode_mesh_blob (archive : List (NpzKey × NpzEntry)) :
    Option MeshMeta × List (List (List ℚ) × List (List ℤ)) :=
  let metadata :=
    match npz_lookup archive .metadata_slot with
    | some (.meta_entry m) => some m
    | _ => none
  (metadata, decode_loop archive archive.length 0)

/-! ### Specification-side definitions

These follow the wording of the specification (not the code) and are used to
state refinement/characterization theorems against the embedded source. -/

/-- Spec-side step function for composition-from-HU (§4.2 item 5 of the
spec): `<500 → uric acid; 500–700 → cystine; 700–1000 → calcium oxalate;
≥1000 → calcium phosphate`. -/
def hu_step_spec (hu : ℚ) : String :=
  if hu < 500 then "uric_acid"
  else if hu < 700 then "cystine"
  else if hu < 1000 then "calcium_oxalate"
  else "calcium_phosphate"

/-- Spec-side per-axis voxel→mm conversion ("voxel dimensions converted via
per-axis spacing"): each component times its axis spacing, `(z, y, x)`
order. -/
def per_axis_mm (dims : List ℚ) (sp : Spacing) : List ℚ :=
  List.zipWith (fun d s => d * s) dims [sp.dz, sp.dy, sp.dx]

/-- The urgency contributed by one stone's flags, ranked as in the per-stone
loop of `_assess_urgency`. -/
def stone_flag (s : Stone) : Option String :=
  if s.hydronephrosis = some "severe" then some "emergent"
  else if s.complete_obstruction then some "emergent"
  else if s.obstruction then some "urgent"
  else none

/-- The scan-wide urgency rules applied when no stone carries a flag:
severe → emergent, moderate → urgent, then the burden rule (sum of sizes
when no burden value is present). -/
def scan_wide_urgency (stones : List Stone) (burden : Option ℚ)
    (hydro : Option String) : String :=
  if hydro = some "severe" then "emergent"
  else if hydro = some "moderate" then "urgent"
  else
    match burden with
    | some v => if equivalent_diameter_ge (some v) 30 = true then "urgent" else "routine"
    | none => if 30 < sum_sizes stones then "urgent" else "routine"

/-- The per-stone loop of `_assess_urgency` is exactly a first-match scan of
`stone_flag` over the stone list. -/
theorem urgency_scan_eq_findSome (stones : List Stone) :
    urgency_stone_scan stones = stones.findSome? stone_flag := by
  induction stones with
  | nil => rfl
  | cons s rest ih =>
    simp only [urgency_stone_scan, List.findSome?, stone_flag]
    split_ifs <;> simp [ih]

/-! ### C1 — urgency assessment order -/

/--
C1 (counterexample): the claim "if any stone has severe hydronephrosis or a
complete-obstruction flag, or the scan-wide level is severe, the result is
emergent" fails: with a first stone carrying only a partial-obstruction flag
and a second stone (and the scan-wide level) severe, `_assess_urgency`
returns `urgent`, not `emergent`, because the per-stone loop returns at the
first flagged stone. -/
theorem assess_urgency_not_severity_first :
    assess_urgency
      [⟨none, some 5, none, none, false, true⟩,
       ⟨none, some 5, none, some "severe", false, false⟩]
      (some 100) (some "severe") = "urgent" ∧
    ("urgent" : String) ≠ "emergent" := by
  exact ⟨rfl, by decide⟩

/--
C1 (amended): urgency is assessed by scanning stones in list order and
returning at the first stone bearing any flag (severe hydronephrosis or
complete obstruction → emergent, else partial obstruction → urgent); only
when no stone bears a flag are the scan-wide level (severe → emergent,
moderate → urgent) and then the burden rule (equivalent diameter ≥ 30mm →
urgent, sum of stone sizes > 30mm when no burden value is present) applied,
else routine. -/
theorem assess_urgency_first_flag_wins (stones : List Stone) (burden : Option ℚ)
    (hydro : Option String) :
    assess_urgency stones burden hydro =
      (stones.findSome? stone_flag).getD (scan_wide_urgency stones burden hydro) := by
  unfold assess_urgency scan_wide_urgency
  rw [← urgency_scan_eq_findSome]
  cases urgency_scan_result : urgency_stone_scan stones <;> rfl

/-! ### C2 — composition from Hounsfield units -/

/--
C2: `_predict_composition_from_hu` is exactly the spec's pure step function
of the HU value, with the boundary values behaving as claimed
(499 → uric_acid, 500/699 → cystine, 700/999 → calcium_oxalate,
1000 → calcium_phosphate). -/
theorem predict_composition_from_hu_step :
    (∀ hu : ℚ, predict_composition_from_hu hu = hu_step_spec hu) ∧
    predict_composition_from_hu 499 = "uric_acid" ∧
    predict_composition_from_hu 500 = "cystine" ∧
    predict_composition_from_hu 699 = "cystine" ∧
    predict_composition_from_hu 700 = "calcium_oxalate" ∧
    predict_composition_from_hu 999 = "calcium_oxalate" ∧
    predict_composition_from_hu 1000 = "calcium_phosphate" := by
  refine ⟨fun hu => ?_, by decide, by decide, by decide, by decide, by decide, by decide⟩
  unfold predict_composition_from_hu hu_step_spec
  split_ifs <;> first
    | rfl
    | (exfalso; simp_all)

/-! ### C10 — location normalization default -/

/--
C10: location normalization is total with a silent default: a missing
location, and any location string containing none of the recognized markers
(`upper`/`lower` with `kidney`, `proximal`, `distal`, `ureter` — the latter
covering `upper ureter` and `lower ureter`), maps to `kidney_upper`; such a
stone is never classified as ureteral by the treatment decision's filter. -/
theorem hasSubstrC_of_hasPrefixC {b l : List Char} (h : hasPrefixC b l = true) :
    hasSubstrC b l = true := by
  cases l with
  | nil =>
    cases b with
    | nil => rfl
    | cons x xs => simp [hasPrefixC] at h
  | cons c cs => simp [hasSubstrC, h]

theorem hasSubstrC_of_prefix_append {a b l : List Char}
    (h : hasPrefixC (a ++ b) l = true) : hasSubstrC b l = true := by
  induction a generalizing l with
  | nil => exact hasSubstrC_of_hasPrefixC h
  | cons p ps ih =>
    cases l with
    | nil => simp [hasPrefixC] at h
    | cons c cs =>
      simp only [List.cons_append, hasPrefixC, Bool.and_eq_true] at h
      have := ih h.2
      cases hx : hasSubstrC b cs with
      | true => simp [hasSubstrC, hx]
      | false => rw [hx] at this; exact absurd this (by simp)

/-- If a needle of the form `a ++ b` occurs in a haystack, so does `b`. -/
theorem hasSubstrC_suffix_needle {a b l : List Char}
    (h : hasSubstrC (a ++ b) l = true) : hasSubstrC b l = true := by
  induction l with
  | nil =>
    simp only [hasSubstrC, List.isEmpty_eq_true, List.append_eq_nil] at h
    simp [hasSubstrC, h.2]
  | cons c cs ih =>
    simp only [hasSubstrC, Bool.or_eq_true] at h
    rcases h with h | h
    · exact hasSubstrC_of_prefix_append h
    · have := ih h
      cases hx : hasPrefixC b (c :: cs) <;> simp [hasSubstrC, this]

theorem normalize_location_default (s : String)
    (hprox : str_contains (to_lower s) "proximal" = false)
    (hdist : str_contains (to_lower s) "distal" = false)
    (hure : str_contains (to_lower s) "ureter" = false)
    (hupper : str_contains (to_lower s) "upper" = false ∨
      str_contains (to_lower s) "kidney" = false)
    (hlower : str_contains (to_lower s) "lower" = false ∨
      str_contains (to_lower s) "kidney" = false) :
    normalize_location (some s) = "kidney_upper" ∧
    normalize_location none = "kidney_upper" ∧
    is_ureteral (normalize_location (some s)) = false ∧
    ∀ (st : Stone) (stones : List Stone), (st.location = some s ∨ st.location = none) →
      st ∉ ureteral_stones stones := by
  have hub : str_contains (to_lower s) "upper ureter" = false := by
    cases hx : str_contains (to_lower s) "upper ureter" with
    | false => rfl
    | true =>
      exfalso
      have hsplit : ("upper ureter".toList) = "upper ".toList ++ "ureter".toList := by decide
      unfold str_contains at hx hure
      rw [hsplit] at hx
      rw [hasSubstrC_suffix_needle hx] at hure
      exact absurd hure (by decide)
  have hlb : str_contains (to_lower s) "lower ureter" = false := by
    cases hx : str_contains (to_lower s) "lower ureter" with
    | false => rfl
    | true =>
      exfalso
      have hsplit : ("lower ureter".toList) = "lower ".toList ++ "ureter".toList := by decide
      unfold str_contains at hx hure
      rw [hsplit] at hx
      rw [hasSubstrC_suffix_needle hx] at hure
      exact absurd hure (by decide)
  have hnorm : normalize_location (some s) = "kidney_upper" := by
    rcases hupper with h | h <;> rcases hlower with h' | h' <;>
      simp [normalize_location, h, h', hprox, hdist, hure, hub, hlb]
  refine ⟨hnorm, rfl, by rw [hnorm]; decide, ?_⟩
  intro st stones hloc hmem
  unfold ureteral_stones at hmem
  rw [List.mem_filter] at hmem
  have hku : is_ureteral "kidney_upper" = false := by decide
  rcases hloc with hloc | hloc <;>
    (rw [hloc] at hmem; first
      | (rw [hnorm, hku] at hmem; exact absurd hmem.2 (by decide))
      | (rw [show normalize_location none = "kidney_upper" from rfl, hku] at hmem
         exact absurd hmem.2 (by decide)))

/-- C10 witness at a concrete unrecognized location. -/
theorem normalize_location_default_witness :
    normalize_location (some "renal pelvis") = "kidney_upper" ∧
    normalize_location none = "kidney_upper" ∧
    is_ureteral (normalize_location (some "renal pelvis")) = false ∧
    (⟨some "renal pelvis", some 6, none, none, false, false⟩ : Stone) ∉
      ureteral_stones [⟨some "renal pelvis", some 6, none, none, false, false⟩] := by
  have h := normalize_location_default "renal pelvis" (by decide) (by decide) (by decide)
    (Or.inl (by decide)) (Or.inl (by decide))
  exact ⟨h.1, h.2.1, h.2.2.1, h.2.2.2 _ _ (Or.inl rfl)⟩

/-! ### C3 — burden-equivalent diameter ≥ 20mm forces PCNL -/

/--
C3: on a non-empty stone list where no earlier decision rule fires (no
ureteral stone together with moderate-or-severe scan-wide hydronephrosis, no
staghorn shape, composition not struvite), a total burden whose
sphere-equivalent diameter `(6·V/π)^(1/3)` is at least 20mm makes
`_choose_treatment` return PCNL. -/
theorem choose_treatment_burden_pcnl (stones : List Stone) (composition : String)
    (burden : Option ℚ) (hydro : Option String)
    (hne : stones ≠ [])
    (hrule1 : ¬((hydro = some "severe" ∨ hydro = some "moderate") ∧
      ureteral_stones stones ≠ []))
    (hstag : ∀ s ∈ stones, is_staghorn s = false)
    (hcomp : composition ≠ "struvite")
    (hburden : equivalent_diameter_ge burden 20 = true) :
    choose_treatment stones composition burden hydro = "pcnl" := by
  have hany : stones.any is_staghorn = false := by
    rw [List.any_eq_false]
    intro s hs
    simp [hstag s hs]
  unfold choose_treatment
  rw [if_neg hrule1, if_neg ?hc2, if_pos hburden]
  case hc2 =>
    rintro (h | h)
    · rw [hany] at h; exact absurd h (by decide)
    · exact hcomp h.1

/-- C3 witness: a single 5mm renal stone with total burden 4189mm³ (a ≈20mm
sphere) yields PCNL. -/
theorem choose_treatment_burden_pcnl_witness :
    choose_treatment [⟨some "kidney upper pole", some 5, none, none, false, false⟩]
      "calcium_oxalate" (some 4189) none = "pcnl" :=
  choose_treatment_burden_pcnl _ _ _ _ (by decide) (by decide)
    (by decide) (by decide) (by with_unfolding_all rfl)

/-! ### C4 — uric-acid override only fires in the observation band -/

/--
C4 (counterexample): the claim that a uric-acid composition with primary
stone below 15mm yields medical (expulsive) therapy in the renal matrix
branch fails: a single 12mm upper-pole renal uric-acid stone gets `eswl` —
`_adjust_for_composition` is only invoked on the `observation` path
(primary size < 10mm). -/
theorem uric_override_not_applied :
    choose_treatment [⟨some "kidney upper pole", some 12, none, none, false, false⟩]
      "uric_acid" none none = "eswl" ∧
    ("eswl" : String) ≠ "medical_expulsive" := by
  exact ⟨rfl, by decide⟩

/--
C4 (amended): in the renal matrix branch the uric-acid override applies only
when the matrix selects observation, i.e. when the primary stone is below
10mm; there a uric-acid composition yields medical (expulsive) therapy.
(For renal sizes of 10mm and above the matrix's eswl/ureteroscopy/pcnl
choice stands unmodified.) -/
theorem uric_override_observation_band (stones : List Stone) (burden : Option ℚ)
    (hydro : Option String)
    (hne : stones ≠ [])
    (hnoureter : ureteral_stones stones = [])
    (hstag : ∀ s ∈ stones, is_staghorn s = false)
    (hb20 : equivalent_diameter_ge burden 20 = false)
    (hb15 : ¬(3 ≤ stones.length ∧ equivalent_diameter_ge burden 15 = true))
    (hsmall : stone_size_mm (identify_primary_stone stones) < 10) :
    choose_treatment stones "uric_acid" burden hydro = "medical_expulsive" := by
  have hany : stones.any is_staghorn = false := by
    rw [List.any_eq_false]
    intro s hs
    simp [hstag s hs]
  unfold choose_treatment
  rw [if_neg (by rintro ⟨-, h⟩; exact h hnoureter),
    if_neg ?hc2, if_neg (by rw [hb20]; decide), if_neg hb15,
    if_neg (by rw [hnoureter]; exact fun h => h rfl),
    if_neg (by linarith), if_neg (by linarith)]
  · unfold adjust_for_composition
    rw [if_pos ⟨rfl, by linarith⟩]
  case hc2 =>
    rintro (h | h)
    · rw [hany] at h; exact absurd h (by decide)
    · exact absurd h.1 (by decide)

/-- C4 amended-claim witness: a single 4mm lower-pole uric-acid stone gets
medical (expulsive) therapy. -/
theorem uric_override_observation_band_witness :
    choose_treatment [⟨some "kidney lower pole", some 4, none, none, false, false⟩]
      "uric_acid" none none = "medical_expulsive" :=
  uric_override_observation_band _ _ _ (by decide) (by decide) (by decide)
    (by decide) (by decide) (by decide)

/-! ### C5 — crystallography composition override -/

/--
C5: whenever the crystallography payload holds a truthy value under one of
the accepted keys and that value normalizes to a known composition label,
`lab_integration_node` replaces `predicted_composition` with the lab-derived
label and sets `composition_confidence` to `max(prior, 0.9)`: at least 0.9,
never lower than the prior, and a prior of 1.0 stays 1.0. -/
theorem lab_composition_override (st : LabState)
    (crystallography : List (String × String)) (urine : List (String × ℚ))
    (v : String)
    (hv : first_truthy crystallography composition_keys = some v)
    (hknown : normalize_composition (some v) ≠ "unknown") :
    (lab_integration_node st crystallography urine).predicted_composition =
      normalize_composition (some v) ∧
    (lab_integration_node st crystallography urine).composition_confidence =
      some (max (st.composition_confidence.getD 0) (9/10)) ∧
    (9/10 : ℚ) ≤ ((lab_integration_node st crystallography urine).composition_confidence.getD 0) ∧
    st.composition_confidence.getD 0 ≤
      ((lab_integration_node st crystallography urine).composition_confidence.getD 0) ∧
    (st.composition_confidence = some 1 →
      (lab_integration_node st crystallography urine).composition_confidence = some 1) := by
  simp only [lab_integration_node, hv]
  rw [if_pos hknown]
  refine ⟨rfl, rfl, ?_, ?_, ?_⟩
  · simp [le_max_right]
  · simp [le_max_left]
  · intro h1
    rw [h1]
    simp only [Option.getD_some]
    rw [max_eq_left (by norm_num)]

/-- C5 witness: a crystallography report of uric-acid crystals overrides a
calcium-oxalate prediction, and a prior confidence of 1.0 stays 1.0. -/
theorem lab_composition_override_witness :
    (lab_integration_node ⟨"calcium_oxalate", some 1, []⟩
      [("stone_type", "Uric Acid crystals")] []).predicted_composition = "uric_acid" ∧
    (lab_integration_node ⟨"calcium_oxalate", some 1, []⟩
      [("stone_type", "Uric Acid crystals")] []).composition_confidence = some 1 := by
  have h := lab_composition_override ⟨"calcium_oxalate", some 1, []⟩
    [("stone_type", "Uric Acid crystals")] [] "Uric Acid crystals" (by decide) (by decide)
  refine ⟨?_, h.2.2.2.2 rfl⟩
  rw [h.1]
  decide

/-! ### C6 — the size_mm priority chain -/

theorem jdict_get_nil (k : String) : jdict_get [] k = none := rfl

theorem jdict_get_cons (k0 : String) (v0 : JVal) (rest : StoneDict) (k : String) :
    jdict_get ((k0, v0) :: rest) k = if k0 = k then some v0 else jdict_get rest k := by
  by_cases h : k0 = k <;> simp [jdict_get, List.find?, h]

theorem jdict_get_set_self (st : StoneDict) (k : String) (v : JVal) :
    jdict_get (jdict_set st k v) k = some v := by
  induction st with
  | nil => simp [jdict_set, jdict_get_cons]
  | cons p rest ih =>
    obtain ⟨k', v'⟩ := p
    by_cases h : k' = k
    · simp [jdict_set, if_pos h, jdict_get_cons]
    · simp [jdict_set, if_neg h, jdict_get_cons, h, ih]

theorem jdict_get_set_ne (st : StoneDict) (k k' : String) (v : JVal) (h : k' ≠ k) :
    jdict_get (jdict_set st k v) k' = jdict_get st k' := by
  induction st with
  | nil => simp [jdict_set, jdict_get_cons, jdict_get_nil, Ne.symm h]
  | cons p rest ih =>
    obtain ⟨k0, v0⟩ := p
    by_cases h0 : k0 = k
    · subst h0
      simp [jdict_set, jdict_get_cons, Ne.symm h]
    · simp [jdict_set, if_neg h0, jdict_get_cons, ih]

/-- Writes to `dimensions_mm` do not disturb the `size_mm` slot. -/
theorem jdict_get_size_of_set_dims (st : StoneDict) (v : JVal) :
    jdict_get (jdict_set st "dimensions_mm" v) "size_mm" = jdict_get st "size_mm" :=
  jdict_get_set_ne st "dimensions_mm" "size_mm" v (by decide)

/-- Stage 1 of the claimed chain: an explicit millimetre size field. -/
def stage_explicit_mm (stone : StoneDict) : Option ℚ :=
  parse_float_opt (first_value stone size_mm_keys)

/-- Stage 2: the maximum of explicit millimetre dimensions. -/
def stage_dims_mm (stone : StoneDict) : Option ℚ :=
  match parse_vector_opt (first_value stone dims_mm_keys) with
  | some (d :: ds) => some (list_max (d :: ds))
  | _ => none

/-- Stage 3: a (nonzero) scalar voxel size times the maximum spacing. -/
def stage_size_voxels (stone : StoneDict) (sp : Spacing) : Option ℚ :=
  match parse_float_opt (first_value stone size_voxels_keys) with
  | some sv => if sv = 0 then none else some (sv * max_spacing sp)
  | none => none

/-- Stage 4: voxel dimensions converted by `_voxels_to_mm` and maximized. -/
def stage_dims_voxels (stone : StoneDict) (sp : Spacing) : Option ℚ :=
  match parse_vector_opt (first_value stone dims_voxels_keys) with
  | some (d :: ds) => some (list_max (voxels_to_mm (d :: ds) sp))
  | _ => none

/-- Stage 5: bounding-box extents (positions 4–6 minus 1–3 of a ≥6-entry
box) converted by `_voxels_to_mm` and maximized. -/
def stage_bbox (stone : StoneDict) (sp : Spacing) : Option ℚ :=
  match parse_vector_opt (first_value stone bbox_keys) with
  | some (b0 :: b1 :: b2 :: b3 :: b4 :: b5 :: _) =>
    some (list_max (voxels_to_mm [b3 - b0, b4 - b1, b5 - b2] sp))
  | _ => none

/-- The claimed priority chain: the first stage that yields a value. -/
def resolved_size (stone : StoneDict) (sp : Spacing) : Option ℚ :=
  match stage_explicit_mm stone with
  | some q => some q
  | none =>
    match stage_dims_mm stone with
    | some q => some q
    | none =>
      match stage_size_voxels stone sp with
      | some q => some q
      | none =>
        match stage_dims_voxels stone sp with
        | some q => some q
        | none => stage_bbox stone sp

/--
C6 (counterexample): the claim that voxel dimensions are "converted to mm
via per-axis spacing and maximized" fails for a two-component dimension
vector: `_voxels_to_mm` converts only the first component, by the maximum
spacing.  `{dimensions_voxels: [1, 10]}` at unit spacing resolves to
`size_mm = 1`, while the claimed per-axis conversion maximizes to 10. -/
theorem voxel_dims_not_per_axis :
    jdict_get (normalize_sizes [("dimensions_voxels", .jarr [.jnum 1, .jnum 10])] ⟨1, 1, 1⟩)
      "size_mm" = some (.jnum 1) ∧
    list_max (per_axis_mm [1, 10] ⟨1, 1, 1⟩) = 10 ∧
    (1 : ℚ) ≠ 10 := by
  refine ⟨by with_unfolding_all rfl, by with_unfolding_all rfl, by norm_num⟩

/--
C6 (amended): for every stone entry and strictly positive spacing, the
normalizer resolves `size_mm` by this priority chain, taking the first stage
that yields a value: explicit millimetre size; else maximum of explicit
millimetre dimensions; else a *nonzero* scalar voxel size times the maximum
spacing component; else voxel dimensions via `_voxels_to_mm` (per-axis for
three or more components, first component times the maximum spacing
otherwise) maximized; else ≥6-entry bounding-box extents likewise converted
and maximized.  If no stage yields a value the `size_mm` slot is not
written (a pre-existing unparseable value is left in place). -/
theorem normalize_sizes_priority_chain (stone : StoneDict) (sp : Spacing)
    (hz : 0 < sp.dz) (hy : 0 < sp.dy) (hx : 0 < sp.dx) :
    jdict_get (normalize_sizes stone sp) "size_mm" =
      match resolved_size stone sp with
      | some q => some (.jnum q)
      | none => jdict_get stone "size_mm" := by
  simp only [normalize_sizes, resolved_size, stage_explicit_mm, stage_dims_mm,
    stage_size_voxels, stage_dims_voxels, stage_bbox]
  cases h0 : parse_float_opt (first_value stone size_mm_keys) with
  | some q => simp [jdict_get_set_self]
  | none =>
    cases h1 : parse_vector_opt (first_value stone dims_mm_keys) with
    | some l1 =>
      cases l1 with
      | cons d ds => simp [jdict_get_set_self]
      | nil =>
        cases h2 : parse_float_opt (first_value stone size_voxels_keys) with
        | some sv =>
          by_cases hsv : sv = 0
          · simp only [hsv, if_pos rfl]
            cases h3 : parse_vector_opt (first_value stone dims_voxels_keys) with
            | some l3 =>
              cases l3 with
              | cons d ds => simp [jdict_get_set_self]
              | nil =>
                cases h4 : parse_vector_opt (first_value stone bbox_keys) with
                | some l4 =>
                  rcases l4 with _ | ⟨b0, _ | ⟨b1, _ | ⟨b2, _ | ⟨b3, _ | ⟨b4, _ | ⟨b5, rest⟩⟩⟩⟩⟩⟩ <;>
                    simp [jdict_get_set_self, jdict_get_size_of_set_dims]
                | none => simp [jdict_get_size_of_set_dims]
            | none =>
              cases h4 : parse_vector_opt (first_value stone bbox_keys) with
              | some l4 =>
                rcases l4 with _ | ⟨b0, _ | ⟨b1, _ | ⟨b2, _ | ⟨b3, _ | ⟨b4, _ | ⟨b5, rest⟩⟩⟩⟩⟩⟩ <;>
                  simp [jdict_get_set_self, jdict_get_size_of_set_dims]
              | none => simp [jdict_get_size_of_set_dims]
          · simp [if_neg hsv, jdict_get_set_self]
        | none =>
          cases h3 : parse_vector_opt (first_value stone dims_voxels_keys) with
          | some l3 =>
            cases l3 with
            | cons d ds => simp [jdict_get_set_self]
            | nil =>
              cases h4 : parse_vector_opt (first_value stone bbox_keys) with
              | some l4 =>
                rcases l4 with _ | ⟨b0, _ | ⟨b1, _ | ⟨b2, _ | ⟨b3, _ | ⟨b4, _ | ⟨b5, rest⟩⟩⟩⟩⟩⟩ <;>
                  simp [jdict_get_set_self, jdict_get_size_of_set_dims]
              | none => simp [jdict_get_size_of_set_dims]
          | none =>
            cases h4 : parse_vector_opt (first_value stone bbox_keys) with
            | some l4 =>
              rcases l4 with _ | ⟨b0, _ | ⟨b1, _ | ⟨b2, _ | ⟨b3, _ | ⟨b4, _ | ⟨b5, rest⟩⟩⟩⟩⟩⟩ <;>
                simp [jdict_get_set_self, jdict_get_size_of_set_dims]
            | none => simp [jdict_get_size_of_set_dims]
    | none =>
      cases h2 : parse_float_opt (first_value stone size_voxels_keys) with
      | some sv =>
        by_cases hsv : sv = 0
        · simp only [hsv, if_pos rfl]
          cases h3 : parse_vector_opt (first_value stone dims_voxels_keys) with
          | some l3 =>
            cases l3 with
            | cons d ds => simp [jdict_get_set_self]
            | nil =>
              cases h4 : parse_vector_opt (first_value stone bbox_keys) with
              | some l4 =>
                rcases l4 with _ | ⟨b0, _ | ⟨b1, _ | ⟨b2, _ | ⟨b3, _ | ⟨b4, _ | ⟨b5, rest⟩⟩⟩⟩⟩⟩ <;>
                  simp [jdict_get_set_self, jdict_get_size_of_set_dims]
              | none => simp [jdict_get_size_of_set_dims]
          | none =>
            cases h4 : parse_vector_opt (first_value stone bbox_keys) with
            | some l4 =>
              rcases l4 with _ | ⟨b0, _ | ⟨b1, _ | ⟨b2, _ | ⟨b3, _ | ⟨b4, _ | ⟨b5, rest⟩⟩⟩⟩⟩⟩ <;>
                simp [jdict_get_set_self, jdict_get_size_of_set_dims]
            | none => simp [jdict_get_size_of_set_dims]
        · simp [if_neg hsv, jdict_get_set_self]
      | none =>
        cases h3 : parse_vector_opt (first_value stone dims_voxels_keys) with
        | some l3 =>
          cases l3 with
          | cons d ds => simp [jdict_get_set_self]
          | nil =>
            cases h4 : parse_vector_opt (first_value stone bbox_keys) with
            | some l4 =>
              rcases l4 with _ | ⟨b0, _ | ⟨b1, _ | ⟨b2, _ | ⟨b3, _ | ⟨b4, _ | ⟨b5, rest⟩⟩⟩⟩⟩⟩ <;>
                simp [jdict_get_set_self, jdict_get_size_of_set_dims]
            | none => simp [jdict_get_size_of_set_dims]
        | none =>
          cases h4 : parse_vector_opt (first_value stone bbox_keys) with
          | some l4 =>
            rcases l4 with _ | ⟨b0, _ | ⟨b1, _ | ⟨b2, _ | ⟨b3, _ | ⟨b4, _ | ⟨b5, rest⟩⟩⟩⟩⟩⟩ <;>
              simp [jdict_get_set_self, jdict_get_size_of_set_dims]
          | none => simp [jdict_get_size_of_set_dims]

/-- C6 amended-claim witness at a concrete stone and spacing. -/
theorem normalize_sizes_priority_chain_witness :
    jdict_get (normalize_sizes [("size_mm", JVal.jnum 7)] ⟨1, 2, 3⟩) "size_mm" =
      match resolved_size [("size_mm", JVal.jnum 7)] ⟨1, 2, 3⟩ with
      | some q => some (JVal.jnum q)
      | none => jdict_get [("size_mm", JVal.jnum 7)] "size_mm" :=
  normalize_sizes_priority_chain _ _ (by norm_num) (by norm_num) (by norm_num)

/-! ### C7 — normalizer totality and the size invariant -/

/-- Helper: the per-stone loop succeeds and is a plain map whenever every
entry passes validation. -/
theorem normalize_stone_list_ok (sp : Spacing) (l : List StoneDict)
    (hok : ∀ o ∈ l, validate_stone (preprocess_stone_fields o) = true ∧
      coord_aliases_ok (preprocess_stone_fields o) = true) :
    normalize_stone_list sp l =
      Except.ok (l.map (fun o => normalize_stone_fields (preprocess_stone_fields o) sp)) := by
  induction l with
  | nil => rfl
  | cons o rest ih =>
    obtain ⟨h1, h2⟩ := hok o (by simp)
    simp only [normalize_stone_list, h1, h2, Bool.and_self, if_pos]
    rw [ih (fun o ho => hok o (by simp [ho]))]
    simp

/--
C7 (counterexample): the claim that every returned stone has a non-null
`size_mm` or carried no size-bearing input fields fails: a stone whose only
size-bearing field is a 3-entry `bbox_voxels` (the chain needs ≥ 6 entries)
is returned unchanged, with the size-bearing field present and no
`size_mm`. -/
theorem bbox_short_stone_kept_without_size :
    normalize_ct_output
      (.jobj [("stones", .jarr [.jobj [("bbox_voxels", .jarr [.jnum 1, .jnum 2, .jnum 3])]])])
      ⟨1, 1, 1⟩ =
      Except.ok [[("bbox_voxels", .jarr [.jnum 1, .jnum 2, .jnum 3])]] ∧
    jdict_get [("bbox_voxels", JVal.jarr [.jnum 1, .jnum 2, .jnum 3])] "size_mm" = none ∧
    jdict_contains [("bbox_voxels", JVal.jarr [.jnum 1, .jnum 2, .jnum 3])] "bbox_voxels" =
      true := by
  exact ⟨rfl, rfl, rfl⟩

/--
C7 (amended): for every modelled input (a parsed JSON value; a JSON-string
input reduces to its parse result, and to the empty payload when parsing
fails) whose extracted stone entries are well-typed, `normalize_ct_output`
returns a (possibly empty) list — the per-stone normalization of each
extracted entry.  A returned stone may carry size-bearing input fields and
still have no `size_mm` when no chain stage yields a value
(`bbox_short_stone_kept_without_size`); outside the well-typed domain
pydantic validation raises instead of dropping the stone. -/
theorem normalize_ct_output_wellformed (raw : JVal) (sp : Spacing)
    (hok : ∀ o ∈ extract_stone_dicts raw,
      validate_stone (preprocess_stone_fields o) = true ∧
      coord_aliases_ok (preprocess_stone_fields o) = true) :
    normalize_ct_output raw sp =
      Except.ok ((extract_stone_dicts raw).map
        (fun o => normalize_stone_fields (preprocess_stone_fields o) sp)) :=
  normalize_stone_list_ok sp (extract_stone_dicts raw) hok

/-- C7 amended-claim witness: a one-stone payload normalizes to a one-stone
list. -/
theorem normalize_ct_output_wellformed_witness :
    normalize_ct_output
      (.jobj [("stones", .jarr [.jobj [("size_mm", .jnum 6),
        ("location", .jstr "left kidney lower pole")]])]) ⟨1, 1, 1⟩ =
      Except.ok ((extract_stone_dicts
        (.jobj [("stones", .jarr [.jobj [("size_mm", .jnum 6),
          ("location", .jstr "left kidney lower pole")]])])).map
        (fun o => normalize_stone_fields (preprocess_stone_fields o) ⟨1, 1, 1⟩)) :=
  normalize_ct_output_wellformed _ _ (by decide)

/-! ### C8 — risk factors: union, never reset, idempotent -/

/-- The risk-factor list produced by one run of `lab_integration_node`. -/
theorem lab_integration_risk_eq (st : LabState) (crys : List (String × String))
    (urine : List (String × ℚ)) :
    (lab_integration_node st crys urine).metabolic_risk_factors =
      (st.metabolic_risk_factors.toFinset ∪ urine_flags urine).sort (· ≤ ·) := rfl

/--
C8: lab integration's metabolic risk factors form a union that is never
reset and is idempotent: every prior risk factor is contained in the output
list, and a second run with identical crystallography and urine payloads
returns exactly the same risk-factor list. -/
theorem risk_factors_union_idempotent (st : LabState) (crys : List (String × String))
    (urine : List (String × ℚ)) :
    (∀ r ∈ st.metabolic_risk_factors,
      r ∈ (lab_integration_node st crys urine).metabolic_risk_factors) ∧
    (lab_integration_node (lab_integration_node st crys urine) crys
        urine).metabolic_risk_factors =
      (lab_integration_node st crys urine).metabolic_risk_factors := by
  constructor
  · intro r hr
    rw [lab_integration_risk_eq]
    rw [Finset.mem_sort]
    exact Finset.mem_union_left _ (List.mem_toFinset.mpr hr)
  · rw [lab_integration_risk_eq, lab_integration_risk_eq,
      Finset.sort_toFinset, Finset.union_assoc, Finset.union_self]

/-- C8 witness: a prior risk factor survives a run that adds a new flag, and
the second identical run changes nothing. -/
theorem risk_factors_union_idempotent_witness :
    "hypocitraturia" ∈ (lab_integration_node ⟨"unknown", none, ["hypocitraturia"]⟩ []
      [("calcium_mg_day", 300)]).metabolic_risk_factors ∧
    (lab_integration_node (lab_integration_node ⟨"unknown", none, ["hypocitraturia"]⟩ []
        [("calcium_mg_day", 300)]) [] [("calcium_mg_day", 300)]).metabolic_risk_factors =
      (lab_integration_node ⟨"unknown", none, ["hypocitraturia"]⟩ []
        [("calcium_mg_day", 300)]).metabolic_risk_factors := by
  refine ⟨(risk_factors_union_idempotent _ _ _).1 "hypocitraturia" (by simp),
    (risk_factors_union_idempotent _ _ _).2⟩

/-! ### C9 — mesh blob round-trip -/

theorem npz_lookup_nil (k : NpzKey) : npz_lookup [] k = none := rfl

theorem npz_lookup_cons (k0 : NpzKey) (e0 : NpzEntry) (rest : List (NpzKey × NpzEntry))
    (k : NpzKey) :
    npz_lookup ((k0, e0) :: rest) k = if k0 = k then some e0 else npz_lookup rest k := by
  by_cases h : k0 = k <;> simp [npz_lookup, List.find?, h]

theorem lookup_mesh_entries_v (ms : List MeshData) (i j : Nat) :
    npz_lookup (mesh_entries i ms) (.vkey (i + j)) =
      (ms[j]?).map (fun m => NpzEntry.num_arr m.vertices) := by
  induction ms generalizing i j with
  | nil => simp [mesh_entries, npz_lookup_nil]
  | cons m rest ih =>
    simp only [mesh_entries]
    rw [npz_lookup_cons, npz_lookup_cons]
    cases j with
    | zero => simp
    | succ j' =>
      rw [if_neg (by simp), if_neg (by simp)]
      rw [show i + (j' + 1) = (i + 1) + j' by omega, ih]
      simp

theorem lookup_mesh_entries_f (ms : List MeshData) (i j : Nat) :
    npz_lookup (mesh_entries i ms) (.fkey (i + j)) =
      (ms[j]?).map (fun m => NpzEntry.int_arr m.faces) := by
  induction ms generalizing i j with
  | nil => simp [mesh_entries, npz_lookup_nil]
  | cons m rest ih =>
    simp only [mesh_entries]
    rw [npz_lookup_cons, npz_lookup_cons]
    cases j with
    | zero => simp
    | succ j' =>
      rw [if_neg (by simp), if_neg (by simp)]
      rw [show i + (j' + 1) = (i + 1) + j' by omega, ih]
      simp

theorem mesh_entries_length (ms : List MeshData) (i : Nat) :
    (mesh_entries i ms).length = 2 * ms.length := by
  induction ms generalizing i with
  | nil => rfl
  | cons m rest ih => simp [mesh_entries, ih]; omega

/-- The decode loop collects exactly the meshes whose slots an archive
holds contiguously from index `i`, given enough fuel. -/
theorem decode_loop_of_lookups (archive : List (NpzKey × NpzEntry)) (ms : List MeshData)
    (i fuel : Nat)
    (hv : ∀ j, npz_lookup archive (.vkey (i + j)) =
      (ms[j]?).map (fun m => NpzEntry.num_arr m.vertices))
    (hf : ∀ j, npz_lookup archive (.fkey (i + j)) =
      (ms[j]?).map (fun m => NpzEntry.int_arr m.faces))
    (hlen : ms.length ≤ fuel) :
    decode_loop archive fuel i = ms.map (fun m => (m.vertices, m.faces)) := by
  induction ms generalizing i fuel with
  | nil =>
    cases fuel with
    | zero => rfl
    | succ f =>
      have hv0 := hv 0
      simp only [Nat.add_zero, List.getElem?_nil, Option.map_none'] at hv0
      simp [decode_loop, hv0]
  | cons m rest ih =>
    cases fuel with
    | zero => simp at hlen
    | succ f =>
      have hv0 := hv 0
      have hf0 := hf 0
      simp only [Nat.add_zero, List.getElem?_cons_zero, Option.map_some'] at hv0 hf0
      simp only [decode_loop, hv0, hf0]
      rw [ih (i + 1) f
        (fun j => by rw [show (i + 1) + j = i + (j + 1) by omega, hv (j + 1)]; simp)
        (fun j => by rw [show (i + 1) + j = i + (j + 1) by omega, hf (j + 1)]; simp)
        (by simpa using Nat.le_of_succ_le_succ hlen)]
      simp

/--
C9: mesh blob round-trip — decoding the archive produced by the mesh
encoder recovers all vertex/face array pairs with their original values and
order, and the original metadata: format version 1, the original voxel
spacing, and a stone count equal to the number of meshes. -/
theorem mesh_blob_roundtrip (meshes : List MeshData) (sp : Spacing) :
    decode_mesh_blob (encode_meshes meshes sp) =
      (some ⟨1, [sp.dz, sp.dy, sp.dx], meshes.length, "npz"⟩,
       meshes.map (fun m => (m.vertices, m.faces))) := by
  unfold decode_mesh_blob encode_meshes
  have hmeta : npz_lookup ((NpzKey.metadata_slot,
      NpzEntry.meta_entry ⟨1, [sp.dz, sp.dy, sp.dx], meshes.length, "npz"⟩) ::
      mesh_entries 0 meshes) .metadata_slot =
      some (.meta_entry ⟨1, [sp.dz, sp.dy, sp.dx], meshes.length, "npz"⟩) := by
    rw [npz_lookup_cons, if_pos rfl]
  rw [hmeta]
  refine congrArg _ ?_
  apply decode_loop_of_lookups _ meshes 0 _
    (fun j => by rw [npz_lookup_cons, if_neg (by simp)]; exact lookup_mesh_entries_v meshes 0 j)
    (fun j => by rw [npz_lookup_cons, if_neg (by simp)]; exact lookup_mesh_entries_f meshes 0 j)
  simp [mesh_entries_length]
  omega

end GemmaStone
